import Mathlib

/-!
Shallow embedding of the telephone-game backend (src/backend/main.py) and the
capability adapters it orchestrates.  Pure data flow is modelled directly; the
speech backends are parameters (functions returning Except, mirroring the fact
that every Python exception raised by an adapter is caught by the orchestrator).
Bytes are lists of naturals below 256.
-/

namespace TelephoneGame

/-- Raw audio payload: one natural number per byte (below 256 in well-formed payloads). -/
abbrev Bytes := List Nat

/-- Whitespace characters removed by Python str.strip (ASCII whitespace set). -/
def pySpace (c : Char) : Bool :=
  c == ' ' || c == '\t' || c == '\n' || c == '\r' || c == '\x0b' || c == '\x0c'

/-- Python str.strip: drop leading and trailing whitespace, as used by
initial_text.strip() in _run_telephone_stream and the endpoint handlers. -/
def pyStrip (s : String) : String :=
  String.mk (List.rdropWhile pySpace (s.toList.dropWhile pySpace))

/-- Standard base64 alphabet, as used by Python base64.b64encode. -/
def b64Alphabet : List Char :=
  "ABCDEFGHIJKLMNOPQRSTUVWXYZabcdefghijklmnopqrstuvwxyz0123456789+/".toList

/-- Character encoding a six-bit value. -/
def b64Char (i : Nat) : Char := b64Alphabet.getD i '?'

/-- Base64 of a byte list, chunked three bytes at a time with = padding,
matching base64.b64encode in main.py line 88. -/
def b64EncodeChunks : Bytes → List Char
  | [] => []
  | [b1] => [b64Char (b1 / 4), b64Char (b1 % 4 * 16), '=', '=']
  | [b1, b2] =>
      [b64Char (b1 / 4), b64Char (b1 % 4 * 16 + b2 / 16), b64Char (b2 % 16 * 4), '=']
  | b1 :: b2 :: b3 :: rest =>
      b64Char (b1 / 4) :: b64Char (b1 % 4 * 16 + b2 / 16) ::
      b64Char (b2 % 16 * 4 + b3 / 64) :: b64Char (b3 % 64) :: b64EncodeChunks rest

/-- Base64 encoding as a string (the audio_base64 field of a tts event). -/
def b64encode (bs : Bytes) : String := String.mk (b64EncodeChunks bs)

/-- Index of a character in the base64 alphabet. -/
def alphaIdx (c : Char) : Option Nat := List.findIdx? (fun x => x == c) b64Alphabet

/-- Decode every character of a base64 body (padding removed) to a six-bit value. -/
def sextetsOf : List Char → Option (List Nat)
  | [] => some []
  | c :: cs =>
    match alphaIdx c, sextetsOf cs with
    | some s, some ss => some (s :: ss)
    | _, _ => none

/-- Reassemble bytes from six-bit groups: four sextets give three bytes, a final
group of two or three sextets gives one or two bytes. -/
def b64DecodeSextets : List Nat → Bytes
  | s1 :: s2 :: s3 :: s4 :: rest =>
      (s1 * 4 + s2 / 16) :: (s2 % 16 * 16 + s3 / 4) :: (s3 % 4 * 64 + s4) ::
      b64DecodeSextets rest
  | [s1, s2] => [s1 * 4 + s2 / 16]
  | [s1, s2, s3] => [s1 * 4 + s2 / 16, s2 % 16 * 16 + s3 / 4]
  | _ => []

/-- Base64 decoding: strip padding, translate characters, regroup into bytes. -/
def b64decode (s : String) : Option Bytes :=
  (sextetsOf (s.toList.filter (fun c => c != '='))).map b64DecodeSextets

/-- The stage of a step that an error event attributes, the step field of the
Python error payload: tts (synthesis) or stt (recognition). -/
inductive Stage
  | tts
  | stt
deriving DecidableEq, Repr

/-- Progress events yielded by _run_telephone_stream, one constructor per
payload type field: tts (synthesis_done), stt (recognition_done), error, done. -/
inductive Event
  | tts (child_index : Nat) (text : String) (audio_base64 : String)
  | stt (child_index : Nat) (text : String)
  | error (step : Stage) (child_index : Nat) (message : String)
  | done (final_text : String)
deriving DecidableEq, Repr

/-- A synthesis backend: text to audio bytes, or a raised exception message. -/
abbrev TTSImpl := String → Except String Bytes

/-- A recognition backend: audio bytes and content type to text, or a raised
exception message. -/
abbrev ASRImpl := Bytes → String → Except String String

/-- Key set of the ASR_MODELS registry in main.py (values are adapter classes,
external to the core). -/
def ASR_MODELS : List String := ["whisper"]

/-- Key set of the TTS_MODELS registry in main.py. -/
def TTS_MODELS : List String := ["chatterbox", "chatterbox-turbo"]

/-- Validation and request errors raised before any event is emitted:
HTTPException and ValueError sites in main.py. -/
inductive RunError
  | unknownAsr (key : String)
  | unknownTts (key : String)
  | emptyText
  | provideTextOrAudio
  | notBothTextAndAudio
  | asrFailed (message : String)
  | noSpeechDetected
  | provideTextInBody
  | paramsOutOfRange
deriving DecidableEq, Repr

/-- The for-loop body of _run_telephone_stream (main.py lines 76-113): the fuel
argument is the number of remaining iterations of range(num_children), the
second argument the current child_index, the third current_text. -/
def telephoneLoop (ttsImpl : TTSImpl) (asrImpl : ASRImpl) : Nat → Nat → String → List Event
  | 0, _, current_text => [Event.done current_text]
  | n + 1, child_index, current_text =>
    match ttsImpl current_text with
    | Except.error e => [Event.error Stage.tts child_index e]
    | Except.ok audio_bytes =>
      Event.tts child_index current_text (b64encode audio_bytes) ::
      match asrImpl audio_bytes "audio/wav" with
      | Except.error e => [Event.error Stage.stt child_index e]
      | Except.ok t =>
        Event.stt child_index t :: telephoneLoop ttsImpl asrImpl n (child_index + 1) t

/-- _run_telephone_stream (main.py lines 63-113): resolve both backends from the
registries, strip the initial text, reject if empty, then run the loop.  A
RunError value models an exception escaping before any event is yielded; an ok
value is the full yielded event stream. -/
def run_telephone_stream (ttsImpl : TTSImpl) (asrImpl : ASRImpl)
    (num_children : Int) (asr_model tts_model : String) (initial_text : String) :
    Except RunError (List Event) :=
  if ¬ (ASR_MODELS.contains asr_model) then Except.error (RunError.unknownAsr asr_model)
  else if ¬ (TTS_MODELS.contains tts_model) then Except.error (RunError.unknownTts tts_model)
  else
    let current_text := pyStrip initial_text
    if current_text = "" then Except.error RunError.emptyText
    else Except.ok (telephoneLoop ttsImpl asrImpl num_children.toNat 0 current_text)

/-- Content type of an uploaded audio file, with Python audio.content_type or
"audio/wav" falsiness (None and the empty string both fall back). -/
def contentTypeOrDefault : Option String → String
  | none => "audio/wav"
  | some ct => if ct = "" then "audio/wav" else ct

/-- POST /api/game/start multipart endpoint (main.py lines 116-162).  The audio
argument carries the uploaded bytes and declared content type when present.
Note num_children has no bound here (Form(4) only sets a default). -/
def start_game_stream (ttsImpl : TTSImpl) (asrImpl : ASRImpl)
    (num_children : Int) (asr_model tts_model : String)
    (text : Option String) (audio : Option (Bytes × Option String)) :
    Except RunError (List Event) :=
  let stripped := pyStrip (text.getD "")
  let initial_text : Option String := if stripped = "" then none else some stripped
  match initial_text, audio with
  | none, none => Except.error RunError.provideTextOrAudio
  | some _, some _ => Except.error RunError.notBothTextAndAudio
  | some t, none => run_telephone_stream ttsImpl asrImpl num_children asr_model tts_model t
  | none, some (contents, content_type) =>
    if ¬ (ASR_MODELS.contains asr_model) then Except.error (RunError.unknownAsr asr_model)
    else
      match asrImpl contents (contentTypeOrDefault content_type) with
      | Except.error e => Except.error (RunError.asrFailed e)
      | Except.ok t =>
        if t = "" then Except.error RunError.noSpeechDetected
        else run_telephone_stream ttsImpl asrImpl num_children asr_model tts_model t

/-- Request body of POST /api/game/start/json (main.py lines 39-44). -/
structure GameParams where
  num_children : Int := 4
  asr_model : String := "whisper"
  tts_model : String := "chatterbox"
  text : Option String := none

/-- Pydantic field validation on GameParams: num_children has ge=1 and le=20. -/
def gameParamsValid (p : GameParams) : Bool :=
  (1 ≤ p.num_children) && (p.num_children ≤ 20)

/-- POST /api/game/start/json endpoint (main.py lines 165-186), including the
pydantic validation that runs before the handler body. -/
def start_game_stream_json (ttsImpl : TTSImpl) (asrImpl : ASRImpl) (p : GameParams) :
    Except RunError (List Event) :=
  if ¬ (gameParamsValid p) then Except.error RunError.paramsOutOfRange
  else
    let initial_text := pyStrip (p.text.getD "")
    if initial_text = "" then Except.error RunError.provideTextInBody
    else run_telephone_stream ttsImpl asrImpl p.num_children p.asr_model p.tts_model initial_text

/-- A synthesis backend that always succeeds, from a total byte function. -/
def okTTS (f : String → Bytes) : TTSImpl := fun s => Except.ok (f s)

/-- A recognition backend that always succeeds, from a total text function. -/
def okASR (g : Bytes → String → String) : ASRImpl := fun bs ct => Except.ok (g bs ct)

/-- One full step of the chain when every call succeeds: synthesize then
transcribe with the fixed "audio/wav" content type. -/
def chainStep (f : String → Bytes) (g : Bytes → String → String) (s : String) : String :=
  g (f s) "audio/wav"

/-- The event stream of a fully successful run, in closed form. -/
def successEvents (f : String → Bytes) (g : Bytes → String → String) :
    Nat → Nat → String → List Event
  | 0, _, current_text => [Event.done current_text]
  | n + 1, child_index, current_text =>
    Event.tts child_index current_text (b64encode (f current_text)) ::
    Event.stt child_index (chainStep f g current_text) ::
    successEvents f g n (child_index + 1) (chainStep f g current_text)

/-- One step of the chain with fallible backends: the produced text, or the
failing stage with the exception message. -/
def stepOnce (ttsImpl : TTSImpl) (asrImpl : ASRImpl) (current_text : String) :
    Except (Stage × String) String :=
  match ttsImpl current_text with
  | Except.error e => Except.error (Stage.tts, e)
  | Except.ok audio_bytes =>
    match asrImpl audio_bytes "audio/wav" with
    | Except.error e => Except.error (Stage.stt, e)
    | Except.ok t => Except.ok t

/-- Text reached after k fully successful steps from a starting text, when all
k steps succeed (none otherwise). -/
def runK (ttsImpl : TTSImpl) (asrImpl : ASRImpl) : Nat → String → Option String
  | 0, current_text => some current_text
  | k + 1, current_text =>
    match stepOnce ttsImpl asrImpl current_text with
    | Except.ok t => runK ttsImpl asrImpl k t
    | Except.error _ => none

/-- Terminal events close the stream: error and done. -/
def isTerminal : Event → Bool
  | Event.error _ _ _ => true
  | Event.done _ => true
  | _ => false

/-- The child index attached to an event (none for done). -/
def eventIdx : Event → Option Nat
  | Event.tts j _ _ => some j
  | Event.stt j _ => some j
  | Event.error _ j _ => some j
  | Event.done _ => none

end TelephoneGame

namespace TelephoneGame

theorem alphaIdx_b64Char : ∀ i, i < 64 → alphaIdx (b64Char i) = some i := by decide

theorem b64Char_ne_pad : ∀ i, i < 64 → (b64Char i != '=') = true := by decide

theorem bytes3_induction {P : Bytes → Prop} (h0 : P []) (h1 : ∀ b, P [b])
    (h2 : ∀ b c, P [b, c]) (h3 : ∀ b c d rest, P rest → P (b :: c :: d :: rest)) :
    ∀ bs, P bs
  | [] => h0
  | [b] => h1 b
  | [b, c] => h2 b c
  | b :: c :: d :: rest => h3 b c d rest (bytes3_induction h0 h1 h2 h3 rest)

theorem b64_round_core :
    ∀ bs : Bytes, (∀ b ∈ bs, b < 256) →
      (sextetsOf ((b64EncodeChunks bs).filter (fun c => c != '='))).map b64DecodeSextets
        = some bs := by
  intro bs
  induction bs using bytes3_induction with
  | h0 =>
    intro _
    simp [b64EncodeChunks, sextetsOf, b64DecodeSextets]
  | h1 b =>
    intro h
    have hb : b < 256 := h b (by simp)
    have n1 := b64Char_ne_pad (b / 4) (by omega)
    have n2 := b64Char_ne_pad (b % 4 * 16) (by omega)
    have a1 := alphaIdx_b64Char (b / 4) (by omega)
    have a2 := alphaIdx_b64Char (b % 4 * 16) (by omega)
    simp [b64EncodeChunks, List.filter_cons, n1, n2, sextetsOf, a1, a2, b64DecodeSextets]
    omega
  | h2 b c =>
    intro h
    have hb : b < 256 := h b (by simp)
    have hc : c < 256 := h c (by simp)
    have n1 := b64Char_ne_pad (b / 4) (by omega)
    have n2 := b64Char_ne_pad (b % 4 * 16 + c / 16) (by omega)
    have n3 := b64Char_ne_pad (c % 16 * 4) (by omega)
    have a1 := alphaIdx_b64Char (b / 4) (by omega)
    have a2 := alphaIdx_b64Char (b % 4 * 16 + c / 16) (by omega)
    have a3 := alphaIdx_b64Char (c % 16 * 4) (by omega)
    simp [b64EncodeChunks, List.filter_cons, n1, n2, n3, sextetsOf, a1, a2, a3,
      b64DecodeSextets]
    constructor <;> omega
  | h3 b c d rest ih =>
    intro h
    have hb : b < 256 := h b (by simp)
    have hc : c < 256 := h c (by simp)
    have hd : d < 256 := h d (by simp)
    have hrest : ∀ x ∈ rest, x < 256 := fun x hx => h x (by simp [hx])
    obtain ⟨ss, hss, hdec⟩ := Option.map_eq_some'.mp (ih hrest)
    have n1 := b64Char_ne_pad (b / 4) (by omega)
    have n2 := b64Char_ne_pad (b % 4 * 16 + c / 16) (by omega)
    have n3 := b64Char_ne_pad (c % 16 * 4 + d / 64) (by omega)
    have n4 := b64Char_ne_pad (d % 64) (by omega)
    have a1 := alphaIdx_b64Char (b / 4) (by omega)
    have a2 := alphaIdx_b64Char (b % 4 * 16 + c / 16) (by omega)
    have a3 := alphaIdx_b64Char (c % 16 * 4 + d / 64) (by omega)
    have a4 := alphaIdx_b64Char (d % 64) (by omega)
    simp [b64EncodeChunks, List.filter_cons, n1, n2, n3, n4, sextetsOf, a1, a2, a3, a4,
      hss, b64DecodeSextets, hdec]
    refine ⟨by omega, by omega, by omega⟩

theorem b64encode_decode (bs : Bytes) (h : ∀ b ∈ bs, b < 256) :
    b64decode (b64encode bs) = some bs := by
  have := b64_round_core bs h
  simpa [b64decode, b64encode] using this

end TelephoneGame

namespace TelephoneGame

theorem dropWhile_head_not {α : Type} (p : α → Bool) :
    ∀ l a t, List.dropWhile p l = a :: t → ¬ p a := by
  intro l
  induction l with
  | nil => intro a t h; simp [List.dropWhile] at h
  | cons x xs ih =>
    intro a t h
    by_cases hx : p x
    · rw [List.dropWhile_cons_of_pos hx] at h
      exact ih a t h
    · rw [List.dropWhile_cons_of_neg hx] at h
      injection h with h1 h2
      subst h1
      exact hx

theorem dropWhile_rdropWhile_dropWhile {α : Type} (p : α → Bool) (l : List α) :
    List.dropWhile p (List.rdropWhile p (List.dropWhile p l)) =
      List.rdropWhile p (List.dropWhile p l) := by
  cases hm : List.rdropWhile p (List.dropWhile p l) with
  | nil => simp
  | cons a t =>
    obtain ⟨u, hu⟩ := hm ▸ List.rdropWhile_prefix p (List.dropWhile p l)
    have hd : List.dropWhile p l = a :: (t ++ u) := by rw [← hu]; rfl
    have hnot : ¬ p a := dropWhile_head_not p l a (t ++ u) hd
    exact List.dropWhile_cons_of_neg hnot

theorem pyStrip_idem (s : String) : pyStrip (pyStrip s) = pyStrip s := by
  show String.mk (List.rdropWhile pySpace
      (((String.mk (List.rdropWhile pySpace (s.toList.dropWhile pySpace))).toList).dropWhile
        pySpace)) = _
  have htl : (String.mk (List.rdropWhile pySpace (s.toList.dropWhile pySpace))).toList =
      List.rdropWhile pySpace (s.toList.dropWhile pySpace) := rfl
  rw [htl, dropWhile_rdropWhile_dropWhile, List.rdropWhile_idempotent]
  rfl

end TelephoneGame

namespace TelephoneGame

theorem loop_ok (f : String → Bytes) (g : Bytes → String → String) :
    ∀ n child_index current_text,
      telephoneLoop (okTTS f) (okASR g) n child_index current_text =
        successEvents f g n child_index current_text := by
  intro n
  induction n with
  | zero => intro _ _; rfl
  | succ n ih =>
    intro child_index current_text
    simp [telephoneLoop, successEvents, okTTS, okASR, chainStep, ih]

theorem successEvents_length (f : String → Bytes) (g : Bytes → String → String) :
    ∀ n child_index current_text,
      (successEvents f g n child_index current_text).length = 2 * n + 1 := by
  intro n
  induction n with
  | zero => intro _ _; simp [successEvents]
  | succ n ih =>
    intro child_index current_text
    simp [successEvents, ih]
    omega

theorem successEvents_tts (f : String → Bytes) (g : Bytes → String → String) :
    ∀ k n child_index current_text, k < n →
      (successEvents f g n child_index current_text)[2 * k]? =
        some (Event.tts (child_index + k) ((chainStep f g)^[k] current_text)
          (b64encode (f ((chainStep f g)^[k] current_text)))) := by
  intro k
  induction k with
  | zero =>
    intro n child_index current_text hk
    obtain ⟨m, rfl⟩ : ∃ m, n = m + 1 := ⟨n - 1, by omega⟩
    simp [successEvents]
  | succ k ih =>
    intro n child_index current_text hk
    obtain ⟨m, rfl⟩ : ∃ m, n = m + 1 := ⟨n - 1, by omega⟩
    have hk' : k < m := by omega
    rw [show 2 * (k + 1) = 2 * k + 1 + 1 from by omega]
    rw [successEvents]
    simp only [List.getElem?_cons_succ]
    rw [ih m (child_index + 1) (chainStep f g current_text) hk']
    rw [Function.iterate_succ_apply]
    have : child_index + 1 + k = child_index + (k + 1) := by omega
    rw [this]

theorem successEvents_stt (f : String → Bytes) (g : Bytes → String → String) :
    ∀ k n child_index current_text, k < n →
      (successEvents f g n child_index current_text)[2 * k + 1]? =
        some (Event.stt (child_index + k) ((chainStep f g)^[k + 1] current_text)) := by
  intro k
  induction k with
  | zero =>
    intro n child_index current_text hk
    obtain ⟨m, rfl⟩ : ∃ m, n = m + 1 := ⟨n - 1, by omega⟩
    simp [successEvents, Function.iterate_succ_apply]
  | succ k ih =>
    intro n child_index current_text hk
    obtain ⟨m, rfl⟩ : ∃ m, n = m + 1 := ⟨n - 1, by omega⟩
    have hk' : k < m := by omega
    rw [show 2 * (k + 1) + 1 = 2 * k + 1 + 1 + 1 from by omega]
    rw [successEvents]
    simp only [List.getElem?_cons_succ]
    rw [ih m (child_index + 1) (chainStep f g current_text) hk']
    conv_rhs => rw [Function.iterate_succ_apply]
    have : child_index + 1 + k = child_index + (k + 1) := by omega
    rw [this]

theorem successEvents_done (f : String → Bytes) (g : Bytes → String → String) :
    ∀ n child_index current_text,
      (successEvents f g n child_index current_text)[2 * n]? =
        some (Event.done ((chainStep f g)^[n] current_text)) := by
  intro n
  induction n with
  | zero => intro _ _; simp [successEvents]
  | succ n ih =>
    intro child_index current_text
    rw [show 2 * (n + 1) = 2 * n + 1 + 1 from by omega]
    rw [successEvents]
    simp only [List.getElem?_cons_succ]
    rw [ih (child_index + 1) (chainStep f g current_text)]
    rw [Function.iterate_succ_apply]

theorem loop_terminal (ttsImpl : TTSImpl) (asrImpl : ASRImpl) :
    ∀ n child_index current_text,
      ∃ E last, telephoneLoop ttsImpl asrImpl n child_index current_text = E ++ [last] ∧
        isTerminal last = true ∧ ∀ e ∈ E, isTerminal e = false := by
  intro n
  induction n with
  | zero =>
    intro child_index current_text
    exact ⟨[], Event.done current_text, rfl, rfl, by simp⟩
  | succ n ih =>
    intro child_index current_text
    cases htts : ttsImpl current_text with
    | error e =>
      exact ⟨[], Event.error Stage.tts child_index e, by simp [telephoneLoop, htts], rfl,
        by simp⟩
    | ok audio_bytes =>
      cases hasr : asrImpl audio_bytes "audio/wav" with
      | error e =>
        refine ⟨[Event.tts child_index current_text (b64encode audio_bytes)],
          Event.error Stage.stt child_index e, by simp [telephoneLoop, htts, hasr], rfl, ?_⟩
        intro x hx
        simp only [List.mem_singleton] at hx
        subst hx
        rfl
      | ok t =>
        obtain ⟨E, last, hE, hlast, hnt⟩ := ih (child_index + 1) t
        refine ⟨Event.tts child_index current_text (b64encode audio_bytes) ::
          Event.stt child_index t :: E, last, ?_, hlast, ?_⟩
        · simp [telephoneLoop, htts, hasr, hE]
        · intro x hx
          simp only [List.mem_cons] at hx
          rcases hx with rfl | rfl | hx
          · rfl
          · rfl
          · exact hnt x hx

end TelephoneGame

namespace TelephoneGame

theorem loop_decomp (ttsImpl : TTSImpl) (asrImpl : ASRImpl) :
    ∀ k n child_index current_text t,
      runK ttsImpl asrImpl k current_text = some t → k ≤ n →
      ∃ E, telephoneLoop ttsImpl asrImpl n child_index current_text
          = E ++ telephoneLoop ttsImpl asrImpl (n - k) (child_index + k) t ∧
        E.length = 2 * k ∧
        ∀ e ∈ E, isTerminal e = false ∧
          ∃ j, eventIdx e = some j ∧ j < child_index + k := by
  intro k
  induction k with
  | zero =>
    intro n child_index current_text t hr _
    simp only [runK] at hr
    injection hr with hr
    subst hr
    exact ⟨[], by simp, rfl, by simp⟩
  | succ k ih =>
    intro n child_index current_text t hr hkn
    obtain ⟨m, rfl⟩ : ∃ m, n = m + 1 := ⟨n - 1, by omega⟩
    simp only [runK] at hr
    cases hstep : stepOnce ttsImpl asrImpl current_text with
    | error e => rw [hstep] at hr; exact absurd hr (by simp)
    | ok t1 =>
      rw [hstep] at hr
      simp only at hr
      cases htts : ttsImpl current_text with
      | error e => simp [stepOnce, htts] at hstep
      | ok audio_bytes =>
        cases hasr : asrImpl audio_bytes "audio/wav" with
        | error e => simp [stepOnce, htts, hasr] at hstep
        | ok t2 =>
          have ht2 : t2 = t1 := by
            simp [stepOnce, htts, hasr] at hstep
            exact hstep
          subst ht2
          obtain ⟨E, hE, hlen, hmem⟩ := ih m (child_index + 1) t2 t hr (by omega)
          refine ⟨Event.tts child_index current_text (b64encode audio_bytes) ::
            Event.stt child_index t2 :: E, ?_, ?_, ?_⟩
          · rw [show m + 1 - (k + 1) = m - k from by omega,
              show child_index + (k + 1) = child_index + 1 + k from by omega]
            simp [telephoneLoop, htts, hasr, hE]
          · simp [hlen]; omega
          · intro e he
            simp only [List.mem_cons] at he
            rcases he with rfl | rfl | he
            · exact ⟨rfl, child_index, rfl, by omega⟩
            · exact ⟨rfl, child_index, rfl, by omega⟩
            · obtain ⟨hterm, j, hj, hjlt⟩ := hmem e he
              exact ⟨hterm, j, hj, by omega⟩

theorem loop_tts_mem (ttsImpl : TTSImpl) (asrImpl : ASRImpl) :
    ∀ n child_index current_text e,
      e ∈ telephoneLoop ttsImpl asrImpl n child_index current_text →
      ∀ j s a, e = Event.tts j s a →
        ∃ bs, ttsImpl s = Except.ok bs ∧ a = b64encode bs := by
  intro n
  induction n with
  | zero =>
    intro child_index current_text e he j s a hne
    simp only [telephoneLoop, List.mem_singleton] at he
    subst he
    cases hne
  | succ n ih =>
    intro child_index current_text e he j s a hne
    rw [telephoneLoop] at he
    cases htts : ttsImpl current_text with
    | error msg =>
      rw [htts] at he
      simp only [List.mem_singleton] at he
      subst he
      cases hne
    | ok audio_bytes =>
      rw [htts] at he
      simp only [List.mem_cons] at he
      rcases he with rfl | he
      · injection hne with h1 h2 h3
        subst h2
        subst h3
        exact ⟨audio_bytes, htts, rfl⟩
      · cases hasr : asrImpl audio_bytes "audio/wav" with
        | error msg =>
          rw [hasr] at he
          simp only [List.mem_singleton] at he
          subst he
          cases hne
        | ok t =>
          rw [hasr] at he
          simp only [List.mem_cons] at he
          rcases he with rfl | he
          · cases hne
          · exact ih (child_index + 1) t e he j s a hne

theorem run_ok_eq (ttsImpl : TTSImpl) (asrImpl : ASRImpl) (num_children : Int)
    (asr_model tts_model initial_text : String)
    (ha : asr_model ∈ ASR_MODELS)
    (ht : tts_model ∈ TTS_MODELS)
    (htext : pyStrip initial_text ≠ "") :
    run_telephone_stream ttsImpl asrImpl num_children asr_model tts_model initial_text =
      Except.ok (telephoneLoop ttsImpl asrImpl num_children.toNat 0 (pyStrip initial_text)) := by
  simp [run_telephone_stream, ha, ht, htext]

theorem run_ok_inv (ttsImpl : TTSImpl) (asrImpl : ASRImpl) (num_children : Int)
    (asr_model tts_model initial_text : String) (evs : List Event)
    (h : run_telephone_stream ttsImpl asrImpl num_children asr_model tts_model initial_text =
      Except.ok evs) :
    evs = telephoneLoop ttsImpl asrImpl num_children.toNat 0 (pyStrip initial_text) := by
  simp only [run_telephone_stream] at h
  split_ifs at h
  injection h with h
  exact h.symm

end TelephoneGame

namespace TelephoneGame

/-- C1: for every participant_count N >= 1 and non-empty (after trimming) initial
text, when every synthesis and recognition call succeeds the event stream has
exactly 2N + 1 events: at position 2k a tts (synthesis_done) event for step k,
at position 2k + 1 an stt (recognition_done) event for step k, for k = 0..N-1 in
increasing order, and at position 2N the single done (finished) event. -/
theorem C1_success_event_shape (f : String → Bytes) (g : Bytes → String → String)
    (N : Int) (_hN : 1 ≤ N) (asr_model tts_model : String)
    (ha : asr_model ∈ ASR_MODELS) (ht : tts_model ∈ TTS_MODELS)
    (initial_text : String) (htext : pyStrip initial_text ≠ "") :
    ∃ evs, run_telephone_stream (okTTS f) (okASR g) N asr_model tts_model initial_text =
        Except.ok evs ∧
      evs.length = 2 * N.toNat + 1 ∧
      (∀ k, k < N.toNat →
        (∃ s a, evs[2 * k]? = some (Event.tts k s a)) ∧
        (∃ s, evs[2 * k + 1]? = some (Event.stt k s))) ∧
      (∃ s, evs[2 * N.toNat]? = some (Event.done s)) := by
  refine ⟨successEvents f g N.toNat 0 (pyStrip initial_text), ?_, ?_, ?_, ?_⟩
  · rw [run_ok_eq _ _ _ _ _ _ ha ht htext, loop_ok]
  · exact successEvents_length f g N.toNat 0 _
  · intro k hk
    constructor
    · exact ⟨(chainStep f g)^[k] (pyStrip initial_text),
        b64encode (f ((chainStep f g)^[k] (pyStrip initial_text))),
        by simpa using successEvents_tts f g k N.toNat 0 (pyStrip initial_text) hk⟩
    · exact ⟨(chainStep f g)^[k + 1] (pyStrip initial_text),
        by simpa using successEvents_stt f g k N.toNat 0 (pyStrip initial_text) hk⟩
  · exact ⟨(chainStep f g)^[N.toNat] (pyStrip initial_text),
      successEvents_done f g N.toNat 0 (pyStrip initial_text)⟩

theorem C1_success_event_shape_witness :
    ∃ evs, run_telephone_stream (okTTS (fun _ => [])) (okASR (fun _ _ => "x")) 1 "whisper"
        "chatterbox" "hi" = Except.ok evs ∧
      evs.length = 2 * (1 : Int).toNat + 1 ∧
      (∀ k, k < (1 : Int).toNat →
        (∃ s a, evs[2 * k]? = some (Event.tts k s a)) ∧
        (∃ s, evs[2 * k + 1]? = some (Event.stt k s))) ∧
      (∃ s, evs[2 * (1 : Int).toNat]? = some (Event.done s)) :=
  C1_success_event_shape (fun _ => []) (fun _ _ => "x") 1 (by decide) "whisper" "chatterbox"
    (by decide) (by decide) "hi" (by decide)

/-- C2 counterexample: with a synthesis backend failing at step 0 of a one-child
run (all zero earlier steps succeeded), the stream is the single terminal error
event, so the number of events preceding the terminal error is 0, not
2 * 0 + 1 = 1 as the claim demands. -/
theorem C2_counterexample :
    run_telephone_stream (fun _ => Except.error "boom") (fun _ _ => Except.ok "x") 1 "whisper"
        "chatterbox" "hi" = Except.ok [Event.error Stage.tts 0 "boom"] ∧
      ¬ (([Event.error Stage.tts 0 "boom"] : List Event).dropLast.length = 2 * 0 + 1) := by
  constructor
  · rfl
  · decide

/-- C2 (amended): for every run in which synthesis fails at step k while all
earlier steps succeeded, exactly 2*k events precede the terminal error event
(the complete pairs of steps 0..k-1), and no recognition_done event for step k
is ever emitted. -/
theorem C2_synthesis_failure_events (ttsImpl : TTSImpl) (asrImpl : ASRImpl)
    (num_children : Int) (asr_model tts_model initial_text : String)
    (ha : asr_model ∈ ASR_MODELS) (ht : tts_model ∈ TTS_MODELS)
    (htext : pyStrip initial_text ≠ "") (k : Nat) (t msg : String)
    (hreach : runK ttsImpl asrImpl k (pyStrip initial_text) = some t)
    (hk : k < num_children.toNat)
    (hfail : ttsImpl t = Except.error msg) :
    ∃ E, run_telephone_stream ttsImpl asrImpl num_children asr_model tts_model initial_text =
        Except.ok (E ++ [Event.error Stage.tts k msg]) ∧
      E.length = 2 * k ∧
      ∀ s, Event.stt k s ∉ E ++ [Event.error Stage.tts k msg] := by
  obtain ⟨E, hE, hlen, hmem⟩ := loop_decomp ttsImpl asrImpl k num_children.toNat 0
    (pyStrip initial_text) t hreach (le_of_lt hk)
  have hrem : num_children.toNat - k = (num_children.toNat - k - 1) + 1 := by omega
  have hloop : telephoneLoop ttsImpl asrImpl (num_children.toNat - k) (0 + k) t =
      [Event.error Stage.tts (0 + k) msg] := by
    rw [hrem]
    simp [telephoneLoop, hfail]
  refine ⟨E, ?_, hlen, ?_⟩
  · rw [run_ok_eq _ _ _ _ _ _ ha ht htext, hE, hloop]
    simp
  · intro s hs
    rw [List.mem_append] at hs
    rcases hs with hs | hs
    · obtain ⟨_, j, hj, hjlt⟩ := hmem _ hs
      simp only [eventIdx, Option.some.injEq] at hj
      omega
    · simp at hs

theorem C2_synthesis_failure_events_witness :
    ∃ E, run_telephone_stream
        (fun s => if s = "b" then Except.error "boom" else Except.ok [1])
        (fun _ _ => Except.ok "b") 2 "whisper" "chatterbox" "hi" =
        Except.ok (E ++ [Event.error Stage.tts 1 "boom"]) ∧
      E.length = 2 * 1 ∧
      ∀ s, Event.stt 1 s ∉ E ++ [Event.error Stage.tts 1 "boom"] :=
  C2_synthesis_failure_events
    (fun s => if s = "b" then Except.error "boom" else Except.ok [1])
    (fun _ _ => Except.ok "b") 2 "whisper" "chatterbox" "hi"
    (by decide) (by decide) (by decide) 1 "b" "boom" (by decide) (by decide) (by rfl)

/-- C3: every event stream an orchestrator run returns contains exactly one
terminal event (error or done), it is the last element, and every event before
it is non-terminal. -/
theorem C3_exactly_one_terminal (ttsImpl : TTSImpl) (asrImpl : ASRImpl)
    (num_children : Int) (asr_model tts_model initial_text : String) (evs : List Event)
    (h : run_telephone_stream ttsImpl asrImpl num_children asr_model tts_model initial_text =
      Except.ok evs) :
    ∃ E last, evs = E ++ [last] ∧ isTerminal last = true ∧ ∀ e ∈ E, isTerminal e = false := by
  rw [run_ok_inv ttsImpl asrImpl num_children asr_model tts_model initial_text evs h]
  exact loop_terminal ttsImpl asrImpl num_children.toNat 0 (pyStrip initial_text)

theorem C3_exactly_one_terminal_witness :
    ∃ E last, ([Event.tts 0 "hi" "", Event.stt 0 "x", Event.done "x"] : List Event)
        = E ++ [last] ∧ isTerminal last = true ∧ ∀ e ∈ E, isTerminal e = false :=
  C3_exactly_one_terminal (fun _ => Except.ok []) (fun _ _ => Except.ok "x") 1 "whisper"
    "chatterbox" "hi" [Event.tts 0 "hi" "", Event.stt 0 "x", Event.done "x"] (by rfl)

/-- C4: in every successful run the done (finished) event is last and carries
the same text as the last stt (recognition_done) event, the current_text after
the final recognition step. -/
theorem C4_final_text (f : String → Bytes) (g : Bytes → String → String)
    (N : Int) (hN : 1 ≤ N) (asr_model tts_model : String)
    (ha : asr_model ∈ ASR_MODELS) (ht : tts_model ∈ TTS_MODELS)
    (initial_text : String) (htext : pyStrip initial_text ≠ "") :
    ∃ evs s, run_telephone_stream (okTTS f) (okASR g) N asr_model tts_model initial_text =
        Except.ok evs ∧
      evs[evs.length - 1]? = some (Event.done s) ∧
      evs[evs.length - 2]? = some (Event.stt (N.toNat - 1) s) := by
  have hN1 : 1 ≤ N.toNat := by omega
  refine ⟨successEvents f g N.toNat 0 (pyStrip initial_text),
    (chainStep f g)^[N.toNat] (pyStrip initial_text), ?_, ?_, ?_⟩
  · rw [run_ok_eq _ _ _ _ _ _ ha ht htext, loop_ok]
  · rw [successEvents_length]
    rw [show 2 * N.toNat + 1 - 1 = 2 * N.toNat from by omega]
    exact successEvents_done f g N.toNat 0 _
  · rw [successEvents_length]
    rw [show 2 * N.toNat + 1 - 2 = 2 * (N.toNat - 1) + 1 from by omega]
    rw [successEvents_stt f g (N.toNat - 1) N.toNat 0 _ (by omega)]
    rw [show N.toNat - 1 + 1 = N.toNat from by omega]
    simp

theorem C4_final_text_witness :
    ∃ evs s, run_telephone_stream (okTTS (fun _ => [])) (okASR (fun _ _ => "y")) 2 "whisper"
        "chatterbox" "hi" = Except.ok evs ∧
      evs[evs.length - 1]? = some (Event.done s) ∧
      evs[evs.length - 2]? = some (Event.stt ((2 : Int).toNat - 1) s) :=
  C4_final_text (fun _ => []) (fun _ _ => "y") 2 (by decide) "whisper" "chatterbox"
    (by decide) (by decide) "hi" (by decide)

end TelephoneGame

namespace TelephoneGame

/-- C5 counterexample: invoked with participant_count 0, valid backend keys and
non-empty text, the orchestrator does not reject the run: it executes and
produces an event (the finished event), contradicting the claim that no run
with a non-positive participant count produces events. -/
theorem C5_counterexample :
    run_telephone_stream (fun _ => Except.ok []) (fun _ _ => Except.ok "") 0 "whisper"
        "chatterbox" "hi" = Except.ok [Event.done "hi"] ∧
      ([Event.done "hi"] : List Event).length ≠ 0 := by
  exact ⟨rfl, by decide⟩

/-- C5 (amended): the orchestrator itself does not defensively reject
participant_count <= 0: with valid backend keys and non-empty trimmed text it
runs zero steps and emits a single finished event carrying the trimmed text.
Only the JSON endpoint rejects non-positive counts, through its parameter
validation bound 1 <= num_children <= 20. -/
theorem C5_nonpositive_count (ttsImpl : TTSImpl) (asrImpl : ASRImpl) :
    (∀ (num_children : Int), num_children ≤ 0 →
      ∀ asr_model tts_model initial_text, asr_model ∈ ASR_MODELS → tts_model ∈ TTS_MODELS →
        pyStrip initial_text ≠ "" →
        run_telephone_stream ttsImpl asrImpl num_children asr_model tts_model initial_text =
          Except.ok [Event.done (pyStrip initial_text)]) ∧
    (∀ p : GameParams, p.num_children ≤ 0 →
      start_game_stream_json ttsImpl asrImpl p = Except.error RunError.paramsOutOfRange) := by
  constructor
  · intro num_children hn asr_model tts_model initial_text ha ht htext
    rw [run_ok_eq _ _ _ _ _ _ ha ht htext]
    rw [show num_children.toNat = 0 from by omega]
    rfl
  · intro p hp
    have h1 : decide (1 ≤ p.num_children) = false := decide_eq_false (by omega)
    simp [start_game_stream_json, gameParamsValid, h1]

theorem C5_nonpositive_count_witness :
    run_telephone_stream (fun _ => Except.ok []) (fun _ _ => Except.ok "") (-2) "whisper"
        "chatterbox" "hi" = Except.ok [Event.done (pyStrip "hi")] ∧
      start_game_stream_json (fun _ => Except.ok []) (fun _ _ => Except.ok "")
        ⟨-2, "whisper", "chatterbox", some "hi"⟩ = Except.error RunError.paramsOutOfRange :=
  ⟨(C5_nonpositive_count (fun _ => Except.ok []) (fun _ _ => Except.ok "")).1 (-2) (by decide)
      "whisper" "chatterbox" "hi" (by decide) (by decide) (by decide),
    (C5_nonpositive_count (fun _ => Except.ok []) (fun _ _ => Except.ok "")).2
      ⟨-2, "whisper", "chatterbox", some "hi"⟩ (by decide)⟩

/-- C6: when the synthesis or recognition backend key is absent from its
registry table, the run fails with the corresponding unknown-backend error and
returns no event stream at all, for every backend behavior, participant count
and initial text. -/
theorem C6_unknown_backend_rejects (ttsImpl : TTSImpl) (asrImpl : ASRImpl)
    (num_children : Int) (asr_model tts_model initial_text : String)
    (h : asr_model ∉ ASR_MODELS ∨ tts_model ∉ TTS_MODELS) :
    ∃ e, run_telephone_stream ttsImpl asrImpl num_children asr_model tts_model initial_text =
        Except.error e ∧
      (e = RunError.unknownAsr asr_model ∨ e = RunError.unknownTts tts_model) := by
  by_cases hasr : asr_model ∈ ASR_MODELS
  · have htts : tts_model ∉ TTS_MODELS := by tauto
    exact ⟨RunError.unknownTts tts_model, by simp [run_telephone_stream, hasr, htts], Or.inr rfl⟩
  · exact ⟨RunError.unknownAsr asr_model, by simp [run_telephone_stream, hasr], Or.inl rfl⟩

theorem C6_unknown_backend_rejects_witness :
    ∃ e, run_telephone_stream (fun _ => Except.ok []) (fun _ _ => Except.ok "x") 4
        "nonexistent-model" "chatterbox" "hi" = Except.error e ∧
      (e = RunError.unknownAsr "nonexistent-model" ∨ e = RunError.unknownTts "chatterbox") :=
  C6_unknown_backend_rejects (fun _ => Except.ok []) (fun _ _ => Except.ok "x") 4
    "nonexistent-model" "chatterbox" "hi" (Or.inl (by decide))

/-- C7: a request whose initial message is empty or whitespace-only, with no
audio supplied, is rejected with a validation error and no event stream, at the
multipart endpoint, at the JSON endpoint, and by the orchestrator itself. -/
theorem C7_empty_input_rejected :
    (∀ (ttsImpl : TTSImpl) (asrImpl : ASRImpl) (num_children : Int)
      (asr_model tts_model s : String), pyStrip s = "" →
      start_game_stream ttsImpl asrImpl num_children asr_model tts_model (some s) none =
        Except.error RunError.provideTextOrAudio) ∧
    (∀ (ttsImpl : TTSImpl) (asrImpl : ASRImpl) (num_children : Int)
      (asr_model tts_model : String),
      start_game_stream ttsImpl asrImpl num_children asr_model tts_model none none =
        Except.error RunError.provideTextOrAudio) ∧
    (∀ (ttsImpl : TTSImpl) (asrImpl : ASRImpl) (p : GameParams),
      pyStrip (p.text.getD "") = "" →
      ∃ e, start_game_stream_json ttsImpl asrImpl p = Except.error e) ∧
    (∀ (ttsImpl : TTSImpl) (asrImpl : ASRImpl) (num_children : Int)
      (asr_model tts_model s : String), pyStrip s = "" →
      ∃ e, run_telephone_stream ttsImpl asrImpl num_children asr_model tts_model s =
        Except.error e) := by
  refine ⟨?_, ?_, ?_, ?_⟩
  · intro ttsImpl asrImpl num_children asr_model tts_model s hs
    simp [start_game_stream, hs]
  · intro ttsImpl asrImpl num_children asr_model tts_model
    have h0 : pyStrip "" = "" := rfl
    simp [start_game_stream, h0]
  · intro ttsImpl asrImpl p hp
    by_cases hv : gameParamsValid p
    · exact ⟨RunError.provideTextInBody, by simp [start_game_stream_json, hv, hp]⟩
    · exact ⟨RunError.paramsOutOfRange, by simp [start_game_stream_json, hv]⟩
  · intro ttsImpl asrImpl num_children asr_model tts_model s hs
    by_cases hasr : asr_model ∈ ASR_MODELS
    · by_cases htts : tts_model ∈ TTS_MODELS
      · exact ⟨RunError.emptyText, by simp [run_telephone_stream, hasr, htts, hs]⟩
      · exact ⟨RunError.unknownTts tts_model, by simp [run_telephone_stream, hasr, htts]⟩
    · exact ⟨RunError.unknownAsr asr_model, by simp [run_telephone_stream, hasr]⟩

theorem C7_empty_input_rejected_witness :
    start_game_stream (fun _ => Except.ok []) (fun _ _ => Except.ok "x") 4 "whisper"
        "chatterbox" (some "   ") none = Except.error RunError.provideTextOrAudio ∧
      (∃ e, run_telephone_stream (fun _ => Except.ok []) (fun _ _ => Except.ok "x") 4 "whisper"
        "chatterbox" " " = Except.error e) :=
  ⟨C7_empty_input_rejected.1 (fun _ => Except.ok []) (fun _ _ => Except.ok "x") 4 "whisper"
      "chatterbox" "   " (by decide),
    C7_empty_input_rejected.2.2.2 (fun _ => Except.ok []) (fun _ _ => Except.ok "x") 4 "whisper"
      "chatterbox" " " (by decide)⟩

/-- C8: whatever exception message a backend raises at whatever reachable step,
the orchestrator catches it and returns a stream ending in a terminal error
event carrying that step index, the failing stage and the exception message
unchanged; nothing follows the error event and the failure never escapes. -/
theorem C8_exception_becomes_error_event (ttsImpl : TTSImpl) (asrImpl : ASRImpl)
    (num_children : Int) (asr_model tts_model initial_text : String)
    (ha : asr_model ∈ ASR_MODELS) (ht : tts_model ∈ TTS_MODELS)
    (htext : pyStrip initial_text ≠ "") (k : Nat) (t : String)
    (hreach : runK ttsImpl asrImpl k (pyStrip initial_text) = some t)
    (hk : k < num_children.toNat) (stage : Stage) (msg : String)
    (hfail : stepOnce ttsImpl asrImpl t = Except.error (stage, msg)) :
    ∃ E, run_telephone_stream ttsImpl asrImpl num_children asr_model tts_model initial_text =
        Except.ok (E ++ [Event.error stage k msg]) ∧
      ∀ e ∈ E, isTerminal e = false := by
  obtain ⟨E, hE, hlen, hmem⟩ := loop_decomp ttsImpl asrImpl k num_children.toNat 0
    (pyStrip initial_text) t hreach (le_of_lt hk)
  have hrem : num_children.toNat - k = (num_children.toNat - k - 1) + 1 := by omega
  cases htts : ttsImpl t with
  | error e0 =>
    obtain ⟨h1, h2⟩ : Stage.tts = stage ∧ e0 = msg := by
      have := hfail
      simp only [stepOnce, htts] at this
      injection this with this
      exact ⟨congrArg Prod.fst this, congrArg Prod.snd this⟩
    subst h1
    subst h2
    have hloop : telephoneLoop ttsImpl asrImpl (num_children.toNat - k) (0 + k) t =
        [Event.error Stage.tts (0 + k) e0] := by
      rw [hrem]
      simp [telephoneLoop, htts]
    refine ⟨E, ?_, fun e he => (hmem e he).1⟩
    rw [run_ok_eq _ _ _ _ _ _ ha ht htext, hE, hloop]
    simp
  | ok audio_bytes =>
    cases hasr : asrImpl audio_bytes "audio/wav" with
    | error e0 =>
      obtain ⟨h1, h2⟩ : Stage.stt = stage ∧ e0 = msg := by
        have := hfail
        simp only [stepOnce, htts, hasr] at this
        injection this with this
        exact ⟨congrArg Prod.fst this, congrArg Prod.snd this⟩
      subst h1
      subst h2
      have hloop : telephoneLoop ttsImpl asrImpl (num_children.toNat - k) (0 + k) t =
          [Event.tts (0 + k) t (b64encode audio_bytes), Event.error Stage.stt (0 + k) e0] := by
        rw [hrem]
        simp [telephoneLoop, htts, hasr]
      refine ⟨E ++ [Event.tts k t (b64encode audio_bytes)], ?_, ?_⟩
      · rw [run_ok_eq _ _ _ _ _ _ ha ht htext, hE, hloop]
        simp
      · intro e he
        rw [List.mem_append] at he
        rcases he with he | he
        · exact (hmem e he).1
        · simp only [List.mem_singleton] at he
          subst he
          rfl
    | ok t2 =>
      exfalso
      simp [stepOnce, htts, hasr] at hfail

theorem C8_exception_becomes_error_event_witness :
    ∃ E, run_telephone_stream (fun _ => Except.error "kaput") (fun _ _ => Except.ok "x") 1
        "whisper" "chatterbox" "hi" = Except.ok (E ++ [Event.error Stage.tts 0 "kaput"]) ∧
      ∀ e ∈ E, isTerminal e = false :=
  C8_exception_becomes_error_event (fun _ => Except.error "kaput") (fun _ _ => Except.ok "x")
    1 "whisper" "chatterbox" "hi" (by decide) (by decide) (by decide) 0 "hi" (by decide)
    (by decide) Stage.tts "kaput" (by rfl)

/-- C9: every tts (synthesis_done) event in any stream carries as audio_base64
the base64 encoding of exactly the bytes the synthesis backend returned for the
event's text, and decoding that field recovers those bytes unchanged, provided
the backend returns well-formed bytes (below 256). -/
theorem C9_audio_base64_round_trip (ttsImpl : TTSImpl) (asrImpl : ASRImpl)
    (hbytes : ∀ s bs, ttsImpl s = Except.ok bs → ∀ b ∈ bs, b < 256) :
    ∀ n child_index current_text e,
      e ∈ telephoneLoop ttsImpl asrImpl n child_index current_text →
      ∀ j s a, e = Event.tts j s a →
        ∃ bs, ttsImpl s = Except.ok bs ∧ b64decode a = some bs := by
  intro n child_index current_text e he j s a hne
  obtain ⟨bs, hbs, hae⟩ := loop_tts_mem ttsImpl asrImpl n child_index current_text e he j s a hne
  exact ⟨bs, hbs, by rw [hae]; exact b64encode_decode bs (hbytes s bs hbs)⟩

theorem C9_audio_base64_round_trip_witness :
    ∃ bs, okTTS (fun _ => [0, 255, 7, 16]) "hi" = Except.ok bs ∧
      b64decode (b64encode [0, 255, 7, 16]) = some bs :=
  C9_audio_base64_round_trip (okTTS (fun _ => [0, 255, 7, 16])) (okASR (fun _ _ => "x"))
    (fun s bs h => by
      injection h with h
      subst h
      exact (by decide : ∀ b ∈ ([0, 255, 7, 16] : List Nat), b < 256))
    1 0 "hi" (Event.tts 0 "hi" (b64encode [0, 255, 7, 16])) (by decide)
    0 "hi" (b64encode [0, 255, 7, 16]) rfl

/-- C10: invoked through the multipart endpoint with participant_count <= 0 and
non-whitespace text, the loop body never runs: the result is independent of
both backends and is exactly one finished event whose final_text is the trimmed
initial message. -/
theorem C10_nonpositive_multipart_run (ttsImpl : TTSImpl) (asrImpl : ASRImpl)
    (num_children : Int) (hn : num_children ≤ 0) (asr_model tts_model : String)
    (ha : asr_model ∈ ASR_MODELS) (ht : tts_model ∈ TTS_MODELS)
    (text : String) (htext : pyStrip text ≠ "") :
    start_game_stream ttsImpl asrImpl num_children asr_model tts_model (some text) none =
      Except.ok [Event.done (pyStrip text)] := by
  have hidem := pyStrip_idem text
  have htext2 : pyStrip (pyStrip text) ≠ "" := by rw [hidem]; exact htext
  have hbranch : start_game_stream ttsImpl asrImpl num_children asr_model tts_model
      (some text) none =
      run_telephone_stream ttsImpl asrImpl num_children asr_model tts_model (pyStrip text) := by
    simp [start_game_stream, htext]
  rw [hbranch, run_ok_eq _ _ _ _ _ _ ha ht htext2]
  rw [show num_children.toNat = 0 from by omega]
  rw [hidem]
  rfl

theorem C10_nonpositive_multipart_run_witness :
    start_game_stream (fun _ => Except.error "never called") (fun _ _ => Except.error "never")
        (-1) "whisper" "chatterbox" (some " hi ") none =
      Except.ok [Event.done (pyStrip " hi ")] :=
  C10_nonpositive_multipart_run (fun _ => Except.error "never called")
    (fun _ _ => Except.error "never") (-1) (by decide) "whisper" "chatterbox"
    (by decide) (by decide) " hi " (by decide)

end TelephoneGame
